import Mathlib

/-!
Shallow embedding of `src/trpc-client.ts` (WarEraProjects/trpc): the cursor
codec (`parseCursorDate`), the pagination engine (`autoPaginate`), the
rate-limited dispatch queue (`createRateLimitedFetch` / `runNext`), the
POST-query transport adapter (`createPostQueryFetch`) and the operation
dispatcher branch of `makeProxy`.  JS strings are `String`, nullable values
are `Option`, instants are epoch milliseconds as `Int`, machine behaviour
(event loop, promises) becomes explicit state passing / trace predicates.
-/

namespace TrpcClient

/-! ## JavaScript primitives used by the source -/

/-- Truthiness of a `string | undefined` value: `undefined` and `""` are falsy. -/
def jsTruthy : Option String → Bool
  | none => false
  | some s => !(s == "")

/-- Models the JS expression `x || ""` on a `string | undefined` value.
(`"" || ""` is `""`, so the `some ""` case also maps to `""`.) -/
def jsOrEmpty : Option String → String
  | none => ""
  | some s => s

/-- Does `pat` occur as a contiguous run inside the list? -/
def containsRun (pat : List Char) : List Char → Bool
  | [] => pat.isEmpty
  | c :: rest => pat.isPrefixOf (c :: rest) || containsRun pat rest

/-- Models `s.includes(pattern)`: `pattern` occurs as a contiguous substring of `s`. -/
def jsIncludes (s pattern : String) : Bool :=
  containsRun pattern.data s.data

/-! ## Model of the ECMAScript date parser (`new Date(string)` + `isNaN` check)

`new Date` is a platform primitive, not repository code.  We model the
ECMAScript Date Time String Format restricted to the shapes this repository's
cursor date tokens use: `YYYY-MM-DD` and `YYYY-MM-DDTHH:MM:SSZ`, with years
from 1970 on.  Every other string is treated as unparseable (`none`), matching
`isNaN(date.getTime())` being true. -/

def digitVal (c : Char) : Option Nat :=
  if c.isDigit then some (c.toNat - 48) else none

def digits2 : List Char → Option (Nat × List Char)
  | a :: b :: rest =>
    match digitVal a, digitVal b with
    | some x, some y => some (x * 10 + y, rest)
    | _, _ => none
  | _ => none

def digits4 : List Char → Option (Nat × List Char)
  | a :: b :: c :: d :: rest =>
    match digitVal a, digitVal b, digitVal c, digitVal d with
    | some x, some y, some z, some w => some (((x * 10 + y) * 10 + z) * 10 + w, rest)
    | _, _, _, _ => none
  | _ => none

def isLeap (y : Nat) : Bool :=
  (y % 4 == 0 && y % 100 != 0) || y % 400 == 0

def daysInMonth (y m : Nat) : Nat :=
  match m with
  | 1 => 31
  | 2 => if isLeap y then 29 else 28
  | 3 => 31
  | 4 => 30
  | 5 => 31
  | 6 => 30
  | 7 => 31
  | 8 => 31
  | 9 => 30
  | 10 => 31
  | 11 => 30
  | 12 => 31
  | _ => 0

/-- Leap years in `[1, y-1]`. -/
def leapsBefore (y : Nat) : Nat :=
  (y - 1) / 4 - (y - 1) / 100 + (y - 1) / 400

/-- Days from 1970-01-01 to the civil date `y-m-d` (for `y ≥ 1970`). -/
def daysSinceEpoch (y m d : Nat) : Nat :=
  (y - 1970) * 365 + (leapsBefore y - leapsBefore 1970)
    + (List.range (m - 1)).foldl (fun acc i => acc + daysInMonth y (i + 1)) 0
    + (d - 1)

def epochMs (y mo d h mi s : Nat) : Int :=
  ((daysSinceEpoch y mo d * 86400 + h * 3600 + mi * 60 + s) * 1000 : Nat)

def parseTimePart (y mo d : Nat) : List Char → Option Int
  | [] => some (epochMs y mo d 0 0 0)
  | 'T' :: rest =>
    match digits2 rest with
    | some (h, ':' :: r1) =>
      match digits2 r1 with
      | some (mi, ':' :: r2) =>
        match digits2 r2 with
        | some (s, ['Z']) =>
          if h ≤ 23 && mi ≤ 59 && s ≤ 59 then some (epochMs y mo d h mi s) else none
        | _ => none
      | _ => none
    | _ => none
  | _ => none

/-- Model of `new Date(s)` followed by the `isNaN(date.getTime())` rejection:
returns the epoch-millisecond instant, or `none` when the string does not
parse to a finite point in time. -/
def jsDateParse (s : String) : Option Int :=
  match digits4 s.data with
  | some (y, '-' :: r1) =>
    match digits2 r1 with
    | some (mo, '-' :: r2) =>
      match digits2 r2 with
      | some (d, rest) =>
        if y < 1970 || mo < 1 || 12 < mo || d < 1 || daysInMonth y mo < d then none
        else parseTimePart y mo d rest
      | _ => none
    | _ => none
  | _ => none

/-! ## Cursor Codec: `parseCursorDate` (trpc-client.ts lines 32-46) -/

/-- Embeds `parseCursorDate(cursor)`.  The `dateParse` parameter is the
platform date parser (`new Date` + finiteness check); theorems that do not
depend on the platform's date grammar quantify over it, concrete evaluations
use `jsDateParse`.  `none` input models both `null` and `undefined`. -/
def parseCursorDate (dateParse : String → Option Int) (cursor : Option String) : Option Int :=
  match cursor with
  | none => none
  | some c =>
    if c == "" then none
    else
      match c.data.findIdx? (· = '|') with
      | none => none
      | some pipeIndex =>
        let dateStr := String.mk (c.data.take pipeIndex)
        if dateStr == "undefined" then none
        else dateParse dateStr

/-! ## Pagination Engine: `autoPaginate` (trpc-client.ts lines 52-93)

The server is modelled as a stream `query : Nat → Resp α` giving the response
to the `k`-th issued call (call indices coincide with `pageCount` at the
moment of the call, since every loop iteration makes exactly one call and
then increments `pageCount` once).  The run is the list of
`(currentCursor at call time, response)` steps; each step corresponds to
exactly one issued call and one yielded page (`pageOf` of the response),
since the source yields unconditionally right after the call.  `maxPages` is
`Option Nat`, `none` standing for the `Infinity` default; `cursorEnd` is an
optional epoch-millisecond instant.  `fuel` bounds the recursion depth (the
source loop may genuinely run forever when `maxPages` is `Infinity` and the
server never terminates the sequence). -/

/-- Shape of the responses `autoPaginate` reads: `{ items, nextCursor }`.
`nextCursor = none` models an absent/`undefined` field. -/
structure Resp (α : Type) where
  items : List α
  nextCursor : Option String
deriving DecidableEq, Repr

/-- Shape of the yielded pages (`PageResult`): `{ items, cursor }`. -/
structure PageResult (α : Type) where
  items : List α
  cursor : String
deriving DecidableEq, Repr

/-- The page the source yields for a response (lines 71-74):
`{ items: response.items, cursor: response.nextCursor || "" }`. -/
def pageOf {α : Type} (response : Resp α) : PageResult α :=
  ⟨response.items, jsOrEmpty response.nextCursor⟩

/-- The loop guard `pageCount < maxPages`, with `none` as `Infinity`. -/
def ltMaxPages (pageCount : Nat) : Option Nat → Bool
  | none => true
  | some m => pageCount < m

/-- Line 79: `!response.nextCursor || response.items.length === 0 ||
response.nextCursor.includes('undefined')`.  (`includes` is only reached when
`nextCursor` is a non-empty string, where `jsOrEmpty` is the identity, so
using it here is faithful under the short-circuit.) -/
def breakCond {α : Type} (response : Resp α) : Bool :=
  !(jsTruthy response.nextCursor) || response.items.length == 0
    || jsIncludes (jsOrEmpty response.nextCursor) "undefined"

/-- Lines 84-89: with a configured `cursorEnd`, break when the next cursor's
date parses and is strictly earlier than it. -/
def cutoffCond {α : Type} (cursorEnd : Option Int) (response : Resp α) : Bool :=
  match cursorEnd with
  | none => false
  | some ce =>
    match parseCursorDate jsDateParse response.nextCursor with
    | none => false
    | some cursorDate => decide (cursorDate < ce)

/-- The `while` loop of `autoPaginate` (lines 62-92).  Returns the list of
`(currentCursor at call time, response)` steps.  On continuation the source
sets `currentCursor = response.nextCursor` (line 91). -/
def pgLoop {α : Type} (query : Nat → Resp α) (maxPages : Option Nat)
    (cursorEnd : Option Int) : Option String → Nat → Nat → List (Option String × Resp α)
  | _, _, 0 => []
  | currentCursor, pageCount, fuel + 1 =>
    if ltMaxPages pageCount maxPages then
      let response := query pageCount
      if breakCond response then [(currentCursor, response)]
      else if cutoffCond cursorEnd response then [(currentCursor, response)]
      else (currentCursor, response) ::
        pgLoop query maxPages cursorEnd response.nextCursor (pageCount + 1) fuel
    else []

/-- Entry point of the generator: `currentCursor` starts as `input.cursor`
and `pageCount` as `0` (lines 58-59). -/
def autoPaginate {α : Type} (query : Nat → Resp α) (inputCursor : Option String)
    (maxPages : Option Nat) (cursorEnd : Option Int) (fuel : Nat) :
    List (Option String × Resp α) :=
  pgLoop query maxPages cursorEnd inputCursor 0 fuel

/-! ## Rate-Limited Dispatch Queue: `createRateLimitedFetch` (lines 95-140)

Timing model.  `delayMs` is the spacing the source derives (line 97).  A run
of the drain loop is a list of `(now, t)` pairs, one per dispatched call:
`now` is the `Date.now()` read at the top of `runNext` (line 115) and `t` the
`Date.now()` stored into `lastTime` right at dispatch (line 121).  `validRun
delay lastTime steps` states exactly what the event loop guarantees for each
step: the clock is monotone (`lastTime ≤ now`), and since the loop awaits
`setTimeout(wait)` with `wait = max(0, delay - (now - lastTime))` before
dispatching, the dispatch instant satisfies `now + wait ≤ t`.  Every real
execution of the drain loop (however many callers enqueue concurrently — the
queue is drained by a single loop) yields a valid run, and every valid run's
timings are achievable. -/

/-- Line 97: `delayMs = Math.max(1, Math.floor(60000 / rateLimit))`
(Nat division floors, as `Math.floor` does for positive arguments). -/
def delayMs (rateLimit : Nat) : Nat :=
  max 1 (60000 / rateLimit)

/-- Lines 115-118: the suspension the drain loop performs before dispatching. -/
def waitFor (delay : Nat) (lastTime now : Int) : Int :=
  max 0 (delay - (now - lastTime))

/-- The event-loop constraints on one drain run: per dispatched call,
`lastTime ≤ now` (monotone clock) and `now + waitFor delay lastTime now ≤ t`
(`setTimeout` resumes no earlier than the requested delay; `t` is read after
the resume).  The next step's `lastTime` is this step's `t` (line 121). -/
def validRun (delay : Nat) : Int → List (Int × Int) → Bool
  | _, [] => true
  | lastTime, (now, t) :: rest =>
    decide (lastTime ≤ now) && decide (now + waitFor delay lastTime now ≤ t)
      && validRun delay t rest

/-- Consecutive elements are at least `delay` apart, the seed included. -/
def spaced (delay : Nat) : Int → List Int → Bool
  | _, [] => true
  | prev, t :: rest => decide (prev + (delay : Int) ≤ t) && spaced delay t rest

/-! Settlement model of `runNext` (lines 120-133): the popped item's promise
is settled from the transport's outcome (`then`/`catch`), and — via
`.finally` — the drain continues with the rest of the queue in both cases. -/

/-- Final state of a queued call's promise. -/
inductive Settled (ε ρ : Type) where
  | resolved (v : ρ)
  | rejected (e : ε)
deriving DecidableEq, Repr

/-- How `f(args).then(item.resolve).catch(item.reject)` settles one promise. -/
def settleOf {ε ρ : Type} : Except ε ρ → Settled ε ρ
  | .ok v => .resolved v
  | .error e => .rejected e

/-- The dispatch/settlement behaviour of the drain loop over a queue:
each head item is dispatched, its promise settled from its own transport
outcome, and the loop recurses on the rest regardless of that outcome
(the `.finally` branch of lines 126-132). -/
def runNext {α ε ρ : Type} (transport : α → Except ε ρ) :
    List α → List (α × Settled ε ρ)
  | [] => []
  | item :: rest =>
    match transport item with
    | .ok v => (item, .resolved v) :: runNext transport rest
    | .error e => (item, .rejected e) :: runNext transport rest

/-! ## Transport Adapter: `createPostQueryFetch` (lines 142-192)

WHATWG `URL` / `Headers` / `Request` are platform primitives; we model the
slice the adapter touches: a URL is a pre-query base plus an ordered list of
query parameters (percent-encoding left abstract: parameter names/values are
the literal text), parsing requires an alphabetic scheme followed by `://`
and any other string is unparseable; headers are ordered name-value pairs
with names lowercased on insertion, `set` replacing in place. -/

def splitFirst (sep : Char) : List Char → Option (List Char × List Char)
  | [] => none
  | c :: cs =>
    if c = sep then some ([], cs)
    else (splitFirst sep cs).map (fun p => (c :: p.1, p.2))

/-- Split at every occurrence of `sep` (`acc` carries the reversed current
segment). -/
def splitAllAux (sep : Char) : List Char → List Char → List (List Char)
  | [], acc => [acc.reverse]
  | c :: cs, acc =>
    if c = sep then acc.reverse :: splitAllAux sep cs []
    else splitAllAux sep cs (c :: acc)

/-- One `key=value` query segment (no `=` means the value is empty). -/
def parseQuerySegment (seg : List Char) : String × String :=
  match splitFirst '=' seg with
  | none => (String.mk seg, "")
  | some (k, v) => (String.mk k, String.mk v)

/-- Query string as an ordered parameter list (empty segments are skipped,
as `URLSearchParams` does). -/
def parseQuery (q : List Char) : List (String × String) :=
  (splitAllAux '&' q []).filterMap fun seg =>
    if seg.isEmpty then none else some (parseQuerySegment seg)

/-- Model of a parsed `URL`: everything before the first `?`, plus params. -/
structure URLModel where
  base : String
  params : List (String × String)
deriving DecidableEq, Repr

/-- Model of `new URL(s)`: succeeds on `<alphabetic scheme>://...`, anything
else throws (returns `none`).  The query is split off at the first `?`. -/
def parseURL (s : String) : Option URLModel :=
  match splitFirst ':' s.data with
  | none => none
  | some (scheme, rest) =>
    if scheme.isEmpty || !scheme.all Char.isAlpha || !(rest.take 2 = ['/', '/']) then none
    else
      match splitFirst '?' s.data with
      | none => some ⟨s, []⟩
      | some (pre, q) => some ⟨String.mk pre, parseQuery q⟩

/-- `url.searchParams.get(k)`: the first parameter named `k`, if any. -/
def searchGet (u : URLModel) (k : String) : Option String :=
  (u.params.find? (fun p => p.1 == k)).map (·.2)

/-- `url.searchParams.delete(k)`: removes every parameter named `k`. -/
def searchDelete (u : URLModel) (k : String) : URLModel :=
  ⟨u.base, u.params.filter (fun p => !(p.1 == k))⟩

/-- `url.toString()` (no `?` is emitted when no parameters remain). -/
def urlToString (u : URLModel) : String :=
  if u.params.isEmpty then u.base
  else u.base ++ "?" ++ String.intercalate "&" (u.params.map (fun p => p.1 ++ "=" ++ p.2))

/-- ASCII-lowercasing, as `"x".toLowerCase()` / `Headers` name
normalization perform on header names and methods. -/
def jsToLowerCase (s : String) : String :=
  String.mk (s.data.map Char.toLower)

/-- ASCII-uppercasing, as `"x".toUpperCase()` performs on methods. -/
def jsToUpperCase (s : String) : String :=
  String.mk (s.data.map Char.toUpper)

/-- Header name normalization performed by `Headers`. -/
def headerName (k : String) : String := jsToLowerCase k

/-- `headers.set(k, v)`: replace an existing entry in place, else append. -/
def headersSet (hs : List (String × String)) (k v : String) : List (String × String) :=
  let hk := headerName k
  if hs.any (fun p => p.1 == hk) then
    hs.map (fun p => if p.1 == hk then (hk, v) else p)
  else hs ++ [(hk, v)]

/-- `headers.has(k)`. -/
def headersHas (hs : List (String × String)) (k : String) : Bool :=
  hs.any (fun p => p.1 == headerName k)

/-- `new Headers(pairs)`: insert the pairs in order. -/
def newHeaders (pairs : List (String × String)) : List (String × String) :=
  pairs.foldl (fun acc p => headersSet acc p.1 p.2) []

/-- A `Request` object, restricted to the fields the adapter reads. -/
structure JsRequest where
  url : String
  method : String
  headers : List (String × String)
deriving DecidableEq, Repr

/-- The `input` argument of `fetch`: a string, a `URL` object, or a `Request`. -/
inductive FetchInput where
  | str (s : String)
  | urlObj (s : String)
  | request (r : JsRequest)
deriving DecidableEq, Repr

/-- A `RequestInit`, restricted to the fields the adapter reads or writes. -/
structure RequestInit where
  method : Option String
  headers : Option (List (String × String))
  body : Option String
deriving DecidableEq, Repr

/-- `isRequest ? input.method : <nothing>` (line 148's inner branch). -/
def inputMethod : FetchInput → Option String
  | .request r => some r.method
  | _ => none

/-- Lines 154-157: the URL string of the fetch input. -/
def inputUrlString : FetchInput → String
  | .str s => s
  | .urlObj s => s
  | .request r => r.url

/-- Line 148: `(init?.method ?? (isRequest ? input.method : "GET")).toUpperCase()`. -/
def computedMethod (input : FetchInput) (init : Option RequestInit) : String :=
  jsToUpperCase ((init.bind (·.method)).getD ((inputMethod input).getD "GET"))

/-- Lines 173-178: start from the `Request` headers when the input is one,
then overlay `init.headers` entry by entry with `set`. -/
def mergedHeaders (input : FetchInput) (init : Option RequestInit) : List (String × String) :=
  let base := newHeaders (match input with | .request r => r.headers | _ => [])
  match init.bind (·.headers) with
  | some hs => hs.foldl (fun acc p => headersSet acc p.1 p.2) base
  | none => base

/-- Lines 179-181: default the content type unless one is already present. -/
def rewriteHeaders (input : FetchInput) (init : Option RequestInit) : List (String × String) :=
  let headers := mergedHeaders input init
  if headersHas headers "content-type" then headers
  else headersSet headers "content-type" "application/json"

/-- Embeds the wrapper returned by `createPostQueryFetch` (lines 145-191):
the value is the `(input, init)` pair ultimately handed to the wrapped
fetch.  `if (!inputParam)` is a falsy check, so both an absent and an empty
`input` parameter fall through unchanged. -/
def createPostQueryFetch (input : FetchInput) (init : Option RequestInit) :
    FetchInput × Option RequestInit :=
  if computedMethod input init ≠ "GET" then (input, init)
  else
    match parseURL (inputUrlString input) with
    | none => (input, init)
    | some urlObj =>
      match searchGet urlObj "input" with
      | none => (input, init)
      | some inputParam =>
        if inputParam == "" then (input, init)
        else
          (.str (urlToString (searchDelete urlObj "input")),
           some { method := some "POST",
                  headers := some (rewriteHeaders input init),
                  body := some inputParam })

/-! ## Operation Dispatcher: the `apply` trap of `makeProxy` (lines 293-308)

A JS input object is an insertion-ordered list of key-value pairs (keys of a
JS object are unique; the claims below hold for arbitrary lists). -/

/-- A JS value, restricted to what the dispatcher inspects. -/
inductive JsVal where
  | bool (b : Bool)
  | num (n : Int)
  | str (s : String)
  | date (ms : Int)
deriving DecidableEq, Repr

/-- Property read `input[k]` on an object literal. -/
def jsGet (input : List (String × JsVal)) (k : String) : Option JsVal :=
  (input.find? (fun kv => kv.1 == k)).map (·.2)

/-- The keys removed by the rest-destructuring on line 299. -/
def paginationPolicyKeys : List String :=
  ["autoPaginate", "maxPages", "cursorEnd"]

/-- The `...cleanedInput` rest object: all fields except the three policy
keys, in original order with original values. -/
def cleanedInput (input : List (String × JsVal)) : List (String × JsVal) :=
  input.filter (fun kv => !(paginationPolicyKeys.contains kv.1))

/-- Where an invocation is routed, with the data handed over. -/
inductive DispatchResult where
  | paginated (cleaned : List (String × JsVal)) (maxPages cursorEnd : Option JsVal)
  | single (input : List (String × JsVal))
deriving DecidableEq, Repr

/-- Lines 297-307: route to the pagination engine iff
`input.autoPaginate === true`, stripping the policy fields; otherwise
forward the input unchanged to `client.query`. -/
def makeProxyApply (input : List (String × JsVal)) : DispatchResult :=
  if jsGet input "autoPaginate" = some (.bool true) then
    .paginated (cleanedInput input) (jsGet input "maxPages") (jsGet input "cursorEnd")
  else .single input

/-! ## Claim theorems -/

/-- C9: the cursor codec returns the exact instant encoded in the date token
of a well-formed cursor such as `"2026-02-11T23:32:39Z|698bb0c4"`, and
returns no date for `"invalid"` (no separator), `null`/`undefined`, `""`,
and any cursor whose date token does not parse to a finite point in time. -/
theorem C9_parse_cursor_date :
    parseCursorDate jsDateParse (some "2026-02-11T23:32:39Z|698bb0c4") = some 1770852759000
    ∧ parseCursorDate jsDateParse (some "invalid") = none
    ∧ (∀ dateParse : String → Option Int, parseCursorDate dateParse none = none)
    ∧ (∀ dateParse : String → Option Int, parseCursorDate dateParse (some "") = none)
    ∧ (∀ (dateParse : String → Option Int) (c : String) (i : Nat),
        c.data.findIdx? (· = '|') = some i →
        dateParse (String.mk (c.data.take i)) = none →
        parseCursorDate dateParse (some c) = none) := by
  refine ⟨by decide, by decide, fun _ => rfl, fun _ => rfl, ?_⟩
  intro dateParse c i hfind hparse
  by_cases hc : (c == "") = true
  · simp [parseCursorDate, hc]
  · rw [Bool.not_eq_true] at hc
    simp only [parseCursorDate, hc, Bool.false_eq_true, if_false, hfind]
    by_cases hu : (String.mk (c.data.take i) == "undefined") = true
    · simp [hu]
    · rw [Bool.not_eq_true] at hu
      simp [hu, hparse]

/-- Witness for C9: a cursor with a separator whose date token fails the
platform date parse yields no date. -/
theorem C9_witness :
    "zzz|1".data.findIdx? (· = '|') = some 3
    ∧ jsDateParse (String.mk ("zzz|1".data.take 3)) = none
    ∧ parseCursorDate jsDateParse (some "zzz|1") = none :=
  ⟨by decide, by decide,
    C9_parse_cursor_date.2.2.2.2 jsDateParse "zzz|1" 3 (by decide) (by decide)⟩

/-- C10: at any step whose response carries a non-empty next cursor that
contains the substring `"undefined"` anywhere (even inside the opaque id of
an otherwise well-formed cursor), the page is yielded and the sequence
terminates with no further calls: the run ends at exactly that step. -/
theorem C10_undefined_cursor_terminates {α : Type} (query : Nat → Resp α)
    (maxPages : Option Nat) (cursorEnd : Option Int) (currentCursor : Option String)
    (pageCount fuel : Nat) (s : String)
    (hguard : ltMaxPages pageCount maxPages = true)
    (hcur : (query pageCount).nextCursor = some s)
    (_hne : s ≠ "")
    (hinc : jsIncludes s "undefined" = true) :
    pgLoop query maxPages cursorEnd currentCursor pageCount (fuel + 1) =
      [(currentCursor, query pageCount)] := by
  have hbreak : breakCond (query pageCount) = true := by
    simp [breakCond, hcur, jsOrEmpty, hinc]
  simp [pgLoop, hguard, hbreak]

/-- Witness for C10: a cursor with a parseable date token and `"undefined"`
inside the opaque id part still terminates the run after its page. -/
theorem C10_witness :
    ltMaxPages 0 none = true
    ∧ jsIncludes "2026-01-01T00:00:00Z|undefinedX" "undefined" = true
    ∧ (parseCursorDate jsDateParse (some "2026-01-01T00:00:00Z|undefinedX")).isSome = true
    ∧ pgLoop (fun _ => (⟨[1], some "2026-01-01T00:00:00Z|undefinedX"⟩ : Resp Nat))
        none none none 0 3 = [(none, ⟨[1], some "2026-01-01T00:00:00Z|undefinedX"⟩)] :=
  ⟨rfl, by decide, by decide,
    C10_undefined_cursor_terminates _ none none none 0 2 _ rfl rfl (by decide) (by decide)⟩

/-- C1 (corrected): a next cursor that merely fails the Cursor Codec's parse
(no separator, or an unparseable date token) does NOT terminate pagination:
when the line-79 break does not fire, the loop yields the page and continues
into the next call, the failed parse only disabling the cutoff comparison. -/
theorem C1_parse_failure_continues {α : Type} (query : Nat → Resp α)
    (maxPages : Option Nat) (cursorEnd : Option Int) (currentCursor : Option String)
    (pageCount fuel : Nat)
    (hguard : ltMaxPages pageCount maxPages = true)
    (hbreak : breakCond (query pageCount) = false)
    (hparse : parseCursorDate jsDateParse (query pageCount).nextCursor = none) :
    pgLoop query maxPages cursorEnd currentCursor pageCount (fuel + 1) =
      (currentCursor, query pageCount) ::
        pgLoop query maxPages cursorEnd (query pageCount).nextCursor (pageCount + 1) fuel := by
  have hcut : cutoffCond cursorEnd (query pageCount) = false := by
    cases cursorEnd with
    | none => rfl
    | some ce => simp [cutoffCond, hparse]
  simp [pgLoop, hguard, hbreak, hcut]

/-- Witness for C1's corrected statement. -/
theorem C1_witness :
    breakCond (⟨[7], some "notadate|x"⟩ : Resp Nat) = false
    ∧ parseCursorDate jsDateParse (some "notadate|x") = none
    ∧ pgLoop (fun _ => (⟨[7], some "notadate|x"⟩ : Resp Nat)) none none none 0 2 =
        (none, ⟨[7], some "notadate|x"⟩) ::
          pgLoop (fun _ => (⟨[7], some "notadate|x"⟩ : Resp Nat)) none none
            (some "notadate|x") 1 1 :=
  ⟨by decide, by decide,
    C1_parse_failure_continues _ none none none 0 1 rfl (by decide) (by decide)⟩

/-- Counterexample to C1 as stated: with a next cursor `"abc"` (no
separator) or `"baddate|id"` (unparseable date token) — both failing the
Cursor Codec's parse — the engine issues a second call after yielding the
first page: the run of length 2 shows it did not terminate. -/
theorem C1_counterexample :
    parseCursorDate jsDateParse (some "abc") = none
    ∧ (autoPaginate (fun _ => (⟨[0], some "abc"⟩ : Resp Nat)) none none none 2).length = 2
    ∧ parseCursorDate jsDateParse (some "baddate|id") = none
    ∧ (autoPaginate (fun _ => (⟨[0], some "baddate|id"⟩ : Resp Nat))
        none none none 2).length = 2 := by
  decide

/-- C3: with a configured cutoff instant, a step whose response's next
cursor parses to a date strictly earlier than the cutoff still yields that
page, and the run ends at exactly that step (cutoff evaluated on the
incoming next cursor, after yielding). -/
theorem C3_cutoff_after_yield {α : Type} (query : Nat → Resp α) (maxPages : Option Nat)
    (cursorEnd : Int) (currentCursor : Option String) (pageCount fuel : Nat) (d : Int)
    (hguard : ltMaxPages pageCount maxPages = true)
    (hparse : parseCursorDate jsDateParse (query pageCount).nextCursor = some d)
    (hlt : d < cursorEnd) :
    pgLoop query maxPages (some cursorEnd) currentCursor pageCount (fuel + 1) =
      [(currentCursor, query pageCount)] := by
  by_cases hbreak : breakCond (query pageCount) = true
  · simp [pgLoop, hguard, hbreak]
  · rw [Bool.not_eq_true] at hbreak
    have hcut : cutoffCond (some cursorEnd) (query pageCount) = true := by
      simp [cutoffCond, hparse, hlt]
    simp [pgLoop, hguard, hbreak, hcut]

/-- Witness for C3: the spec's example — next cursor
`"2026-02-20T00:00:00Z|abc"` with cutoff 2026-02-25: the page is yielded
and the run stops there. -/
theorem C3_witness :
    ltMaxPages 0 none = true
    ∧ parseCursorDate jsDateParse (some "2026-02-20T00:00:00Z|abc") = some 1771545600000
    ∧ (1771545600000 : Int) < 1771977600000
    ∧ pgLoop (fun _ => (⟨[5], some "2026-02-20T00:00:00Z|abc"⟩ : Resp Nat))
        none (some 1771977600000) none 0 4 =
        [(none, ⟨[5], some "2026-02-20T00:00:00Z|abc"⟩)] :=
  ⟨rfl, by decide, by decide,
    C3_cutoff_after_yield _ none 1771977600000 none 0 3 1771545600000
      rfl (by decide) (by decide)⟩

/-- C5: a response with an empty item list or an empty/absent next cursor is
itself yielded as a page and ends the run; in particular if the first
response is `{items: [], nextCursor: ""}`, exactly one page — empty items,
cursor `""` — is yielded. -/
theorem C5_empty_page_terminates {α : Type} (query : Nat → Resp α) (maxPages : Option Nat)
    (cursorEnd : Option Int) (inputCursor currentCursor : Option String)
    (pageCount fuel : Nat) :
    (ltMaxPages pageCount maxPages = true →
      ((query pageCount).items = [] ∨ jsTruthy (query pageCount).nextCursor = false) →
      pgLoop query maxPages cursorEnd currentCursor pageCount (fuel + 1) =
        [(currentCursor, query pageCount)])
    ∧ (ltMaxPages 0 maxPages = true → (query 0).items = [] → (query 0).nextCursor = some "" →
      (autoPaginate query inputCursor maxPages cursorEnd (fuel + 1)).map
        (fun step => pageOf step.2) = [⟨[], ""⟩]) := by
  constructor
  · intro hguard hcase
    have hbreak : breakCond (query pageCount) = true := by
      rcases hcase with h | h
      · simp [breakCond, h]
      · simp [breakCond, h]
    simp [pgLoop, hguard, hbreak]
  · intro hguard hitems hcur
    have hbreak : breakCond (query 0) = true := by
      simp [breakCond, hitems]
    simp [autoPaginate, pgLoop, hguard, hbreak, pageOf, hitems, hcur, jsOrEmpty]

/-- Witness for C5: the concrete `{items: [], nextCursor: ""}` first
response yields exactly the single page `⟨[], ""⟩`. -/
theorem C5_witness :
    ltMaxPages 0 none = true
    ∧ (autoPaginate (fun _ => (⟨[], some ""⟩ : Resp Nat)) none none none 5).map
        (fun step => pageOf step.2) = [⟨[], ""⟩] :=
  ⟨rfl,
    (C5_empty_page_terminates (fun _ => (⟨[], some ""⟩ : Resp Nat))
      none none none none 0 4).2 rfl rfl rfl⟩

/-- C4: with a finite `maxPages`, if no response ever triggers a break or a
cutoff (non-empty non-terminating next cursor, non-empty items), the run
has exactly `maxPages` steps — one call and one yielded page each — for
every sufficient fuel, i.e. the sequence then ends. -/
theorem C4_max_pages_exact {α : Type} (query : Nat → Resp α) (m : Nat)
    (cursorEnd : Option Int) (inputCursor : Option String)
    (hresp : ∀ k, breakCond (query k) = false ∧ cutoffCond cursorEnd (query k) = false) :
    ∀ fuel, m ≤ fuel → (autoPaginate query inputCursor (some m) cursorEnd fuel).length = m := by
  suffices h : ∀ fuel (currentCursor : Option String) (pageCount : Nat), pageCount ≤ m →
      m - pageCount ≤ fuel →
      (pgLoop query (some m) cursorEnd currentCursor pageCount fuel).length = m - pageCount by
    intro fuel hfuel
    simpa [autoPaginate] using h fuel inputCursor 0 (Nat.zero_le m) (by omega)
  intro fuel
  induction fuel with
  | zero =>
    intro cc pc hpc hf
    simp only [pgLoop, List.length_nil]
    omega
  | succ fuel ih =>
    intro cc pc hpc hf
    by_cases hlt : pc < m
    · have hguard : ltMaxPages pc (some m) = true := by
        simp [ltMaxPages, hlt]
      have h1 := (hresp pc).1
      have h2 := (hresp pc).2
      simp only [pgLoop, hguard, if_true, h1, h2, Bool.false_eq_true, if_false,
        List.length_cons]
      rw [ih (query pc).nextCursor (pc + 1) (by omega) (by omega)]
      omega
    · have hguard : ltMaxPages pc (some m) = false := by
        simp only [ltMaxPages, decide_eq_false_iff_not]
        omega
      simp only [pgLoop, hguard, Bool.false_eq_true, if_false, List.length_nil]
      omega

/-- Witness for C4: a server that always returns a non-terminating cursor
and non-empty items yields exactly `maxPages = 2` pages. -/
theorem C4_witness :
    breakCond (⟨[1], some "c|x"⟩ : Resp Nat) = false
    ∧ cutoffCond none (⟨[1], some "c|x"⟩ : Resp Nat) = false
    ∧ (autoPaginate (fun _ => (⟨[1], some "c|x"⟩ : Resp Nat)) none (some 2) none 5).length = 2 :=
  ⟨by decide, by decide,
    C4_max_pages_exact (fun _ => (⟨[1], some "c|x"⟩ : Resp Nat)) 2 none none
      (fun _ =>
        ⟨show breakCond (⟨[1], some "c|x"⟩ : Resp Nat) = false from by decide,
         show cutoffCond none (⟨[1], some "c|x"⟩ : Resp Nat) = false from by decide⟩)
      5 (by omega)⟩

/-- C6: for every queue and every assignment of transport outcomes, the
drain loop dispatches every queued call in order and settles each call's
promise with exactly its own outcome — a failing call rejects only its own
promise and never stalls or drops the calls queued behind it. -/
theorem C6_queue_liveness {α ε ρ : Type} (transport : α → Except ε ρ) (queue : List α) :
    (runNext transport queue).map Prod.fst = queue
    ∧ runNext transport queue = queue.map (fun item => (item, settleOf (transport item))) := by
  have h2 : runNext transport queue =
      queue.map (fun item => (item, settleOf (transport item))) := by
    induction queue with
    | nil => rfl
    | cons item rest ih =>
      cases htr : transport item with
      | ok v => simp [runNext, htr, settleOf, ih]
      | error e => simp [runNext, htr, settleOf, ih]
  refine ⟨?_, h2⟩
  rw [h2, List.map_map]
  have hid : (Prod.fst ∘ fun item : α => (item, settleOf (transport item))) = id := rfl
  rw [hid, List.map_id]

/-- C2 (corrected): every valid drain-loop run spaces consecutive dispatch
instants (the values stored into `lastTime`) at least `delayMs R =
max(1, ⌊60000/R⌋)` milliseconds apart — the code's derived spacing, which
floors — independent of how the queue was filled, since one loop drains it. -/
theorem C2_min_spacing (rateLimit : Nat) (lastTime : Int) (run : List (Int × Int))
    (_hR : 0 < rateLimit)
    (hvalid : validRun (delayMs rateLimit) lastTime run = true) :
    spaced (delayMs rateLimit) lastTime (run.map Prod.snd) = true := by
  suffices h : ∀ (delay : Nat) (run : List (Int × Int)) (lastTime : Int),
      validRun delay lastTime run = true →
      spaced delay lastTime (run.map Prod.snd) = true from
    h (delayMs rateLimit) run lastTime hvalid
  intro delay run
  induction run with
  | nil => intro lastTime _; rfl
  | cons step rest ih =>
    intro lastTime hv
    obtain ⟨now, t⟩ := step
    rw [validRun, Bool.and_eq_true, Bool.and_eq_true] at hv
    obtain ⟨⟨h1, h2⟩, h3⟩ := hv
    rw [decide_eq_true_eq] at h1 h2
    have h4 : (delay : Int) - (now - lastTime) ≤ waitFor delay lastTime now :=
      le_max_right _ _
    rw [List.map_cons, spaced, Bool.and_eq_true, decide_eq_true_eq]
    exact ⟨by omega, ih t h3⟩

/-- Witness for C2's corrected statement at the default rate 100/min
(spacing 600 ms). -/
theorem C2_witness :
    (0 : Nat) < 100
    ∧ validRun (delayMs 100) 0 [(0, 600), (600, 1200)] = true
    ∧ spaced (delayMs 100) 0 [600, 1200] = true :=
  ⟨by decide, by decide,
    C2_min_spacing 100 0 [(0, 600), (600, 1200)] (by decide) (by decide)⟩

/-- Counterexample to C2 as stated: with rate limit 7/min the code derives
a spacing of `⌊60000/7⌋ = 8571` ms, and a valid run exists whose
consecutive dispatches are exactly 8571 ms apart — strictly less than
`60000/7` ms, since `8571 · 7 < 60000`. -/
theorem C2_counterexample :
    delayMs 7 = 8571
    ∧ validRun (delayMs 7) 0 [(1000000, 1000000), (1000000, 1008571)] = true
    ∧ (1008571 - 1000000) * 7 < 60000 := by
  decide

/-- C8: when `input.autoPaginate === true` the dispatcher hands the
pagination engine exactly the input stripped of the three policy fields:
the cleaned input is a sublist of the original (original relative order,
original values), contains every non-policy field, and no policy field;
when `autoPaginate` is not exactly `true`, the input is forwarded to the
single-call path with nothing stripped. -/
theorem C8_dispatch_strip (input : List (String × JsVal)) :
    (jsGet input "autoPaginate" = some (.bool true) →
      makeProxyApply input =
        .paginated (cleanedInput input) (jsGet input "maxPages") (jsGet input "cursorEnd")
      ∧ List.Sublist (cleanedInput input) input
      ∧ (∀ kv, kv ∈ input → paginationPolicyKeys.contains kv.1 = false →
          kv ∈ cleanedInput input)
      ∧ (∀ kv, kv ∈ cleanedInput input → paginationPolicyKeys.contains kv.1 = false))
    ∧ (jsGet input "autoPaginate" ≠ some (.bool true) → makeProxyApply input = .single input) := by
  constructor
  · intro h
    refine ⟨by simp [makeProxyApply, h], List.filter_sublist _, ?_, ?_⟩
    · intro kv hmem hkey
      exact List.mem_filter.mpr ⟨hmem, by simpa using hkey⟩
    · intro kv hmem
      have hp := (List.mem_filter.mp hmem).2
      simpa using hp
  · intro h
    simp [makeProxyApply, h]

/-- Witness for C8 at a concrete input object. -/
theorem C8_witness :
    makeProxyApply
        [("autoPaginate", .bool true), ("q", .str "tanks"),
         ("maxPages", .num 3), ("limit", .num 10)] =
      .paginated
        (cleanedInput
          [("autoPaginate", .bool true), ("q", .str "tanks"),
           ("maxPages", .num 3), ("limit", .num 10)])
        (jsGet
          [("autoPaginate", .bool true), ("q", .str "tanks"),
           ("maxPages", .num 3), ("limit", .num 10)] "maxPages")
        (jsGet
          [("autoPaginate", .bool true), ("q", .str "tanks"),
           ("maxPages", .num 3), ("limit", .num 10)] "cursorEnd")
    ∧ ("q", JsVal.str "tanks") ∈ cleanedInput
        [("autoPaginate", .bool true), ("q", .str "tanks"),
         ("maxPages", .num 3), ("limit", .num 10)] := by
  have h := (C8_dispatch_strip
    [("autoPaginate", .bool true), ("q", .str "tanks"),
     ("maxPages", .num 3), ("limit", .num 10)]).1 (by decide)
  exact ⟨h.1, h.2.2.1 ("q", .str "tanks") (by decide) (by decide)⟩

theorem headersHas_set_self (hs : List (String × String)) (k v : String) :
    headersHas (headersSet hs k v) k = true := by
  simp only [headersHas, headersSet]
  by_cases h : hs.any (fun p => p.1 == headerName k) = true
  · rw [if_pos h]
    rcases List.any_eq_true.mp h with ⟨p, hp, hpk⟩
    refine List.any_eq_true.mpr ⟨(headerName k, v), List.mem_map.mpr ⟨p, hp, ?_⟩, by simp⟩
    simp [hpk]
  · rw [if_neg h]
    exact List.any_eq_true.mpr
      ⟨(headerName k, v), List.mem_append_right _ (List.mem_singleton.mpr rfl), by simp⟩

theorem headersHas_rewriteHeaders (input : FetchInput) (init : Option RequestInit) :
    headersHas (rewriteHeaders input init) "content-type" = true := by
  rw [rewriteHeaders]
  by_cases h : headersHas (mergedHeaders input init) "content-type" = true
  · simp [h]
  · rw [Bool.not_eq_true] at h
    simp only [h, Bool.false_eq_true, if_false]
    exact headersHas_set_self _ _ _

theorem searchGet_searchDelete (u : URLModel) (k : String) :
    searchGet (searchDelete u k) k = none := by
  have hfind :
      List.find? (fun p => p.1 == k) (List.filter (fun p => !(p.1 == k)) u.params) = none := by
    rw [List.find?_eq_none]
    intro p hp
    have hmem := List.mem_filter.mp hp
    simpa using hmem.2
  simp [searchGet, searchDelete, hfind]

/-- C7 (corrected): through the transport adapter, a request whose computed
method is not `GET` passes through unchanged; so does one whose URL fails to
parse (the adapter is total, hence never throws) and a `GET` whose URL has
no `input` query parameter or an empty-valued one (the source's falsy
check); a `GET` whose URL carries a non-empty `input` parameter is reissued
as a `POST` whose body is exactly that parameter's value, with the `input`
parameter removed from the URL and a content-type header present (set only
if none was). -/
theorem C7_rewrite_characterization (input : FetchInput) (init : Option RequestInit) :
    (computedMethod input init ≠ "GET" → createPostQueryFetch input init = (input, init))
    ∧ (parseURL (inputUrlString input) = none → createPostQueryFetch input init = (input, init))
    ∧ (∀ u, parseURL (inputUrlString input) = some u →
        (searchGet u "input" = none ∨ searchGet u "input" = some "") →
        createPostQueryFetch input init = (input, init))
    ∧ (∀ u v, computedMethod input init = "GET" → parseURL (inputUrlString input) = some u →
        searchGet u "input" = some v → v ≠ "" →
        createPostQueryFetch input init =
          (.str (urlToString (searchDelete u "input")),
           some ⟨some "POST", some (rewriteHeaders input init), some v⟩)
        ∧ headersHas (rewriteHeaders input init) "content-type" = true
        ∧ searchGet (searchDelete u "input") "input" = none) := by
  refine ⟨?_, ?_, ?_, ?_⟩
  · intro hm
    rw [createPostQueryFetch, if_pos hm]
  · intro hu
    by_cases hm : computedMethod input init ≠ "GET"
    · rw [createPostQueryFetch, if_pos hm]
    · have hm' : computedMethod input init = "GET" := not_ne_iff.mp hm
      simp [createPostQueryFetch, hm', hu]
  · intro u hu hget
    by_cases hm : computedMethod input init ≠ "GET"
    · rw [createPostQueryFetch, if_pos hm]
    · have hm' : computedMethod input init = "GET" := not_ne_iff.mp hm
      rcases hget with h | h
      · simp [createPostQueryFetch, hm', hu, h]
      · simp [createPostQueryFetch, hm', hu, h]
  · intro u v hm hu hget hv
    refine ⟨?_, headersHas_rewriteHeaders input init, searchGet_searchDelete u "input"⟩
    have hbv : (v == "") = false := by simpa using hv
    simp [createPostQueryFetch, hm, hu, hget, hbv]

/-- Counterexample to C7 as stated: a `GET` whose URL carries the `input`
query parameter with an empty value — `searchParams.get` returns `""`, so
the parameter is present — is NOT reissued as a `POST`: the falsy check on
line 167 passes it through unchanged. -/
theorem C7_counterexample :
    createPostQueryFetch (.str "https://example.com/a?input=") none =
      (.str "https://example.com/a?input=", none)
    ∧ (parseURL "https://example.com/a?input=").map (fun u => searchGet u "input") =
        some (some "") := by
  decide

/-- Witness for C7's corrected statement: a concrete `GET` with a non-empty
`input` parameter is reissued as a `POST` with that value as body. -/
theorem C7_witness :
    computedMethod (.str "https://h.example/p?input=abc&x=1") none = "GET"
    ∧ parseURL "https://h.example/p?input=abc&x=1" =
        some ⟨"https://h.example/p", [("input", "abc"), ("x", "1")]⟩
    ∧ createPostQueryFetch (.str "https://h.example/p?input=abc&x=1") none =
        (.str (urlToString (searchDelete ⟨"https://h.example/p",
            [("input", "abc"), ("x", "1")]⟩ "input")),
         some ⟨some "POST",
           some (rewriteHeaders (.str "https://h.example/p?input=abc&x=1") none),
           some "abc"⟩)
    ∧ headersHas (rewriteHeaders (.str "https://h.example/p?input=abc&x=1") none)
        "content-type" = true :=
  ⟨by decide, by decide,
    ((C7_rewrite_characterization (.str "https://h.example/p?input=abc&x=1") none).2.2.2
      ⟨"https://h.example/p", [("input", "abc"), ("x", "1")]⟩ "abc"
      (by decide) (by decide) (by decide) (by decide)).1,
    ((C7_rewrite_characterization (.str "https://h.example/p?input=abc&x=1") none).2.2.2
      ⟨"https://h.example/p", [("input", "abc"), ("x", "1")]⟩ "abc"
      (by decide) (by decide) (by decide) (by decide)).2.1⟩

end TrpcClient
